import Mathlib

/-!
Shallow embedding of the Model Recommendation Engine of `gptoggle_v2.py`
(classes `ModelRegistry`, `InputAnalyzer`, `ModelScorer`, `GPToggle`), with
theorems settling the specification claims about it.

Conventions of the embedding:
* Python dicts of model attributes become the `ModelInfo` structure; an
  attribute that may be absent (`dict.get`) becomes an `Option` field.
  Python truthiness tests (`if model.get("intelligence")`) are rendered
  explicitly (`some i` with `i ≠ 0`, a list that is non-empty, a string
  that is non-empty).
* All arithmetic of the scorer is exact in the source (small integers, and
  the two `* 1.5` products always land on integers: `20 * 1.5 = 30`,
  `10 * 1.5 = 15`), so scores are embedded as `Int`.
* `round` in `estimate_tokens` is Python's round-half-to-even, applied to
  `len(text)/4` and `word_count * 0.75 = 3*word_count/4`, both exactly
  representable dyadic rationals; `round_div4` models it exactly.
* Regex `\b\w+\b` word counting and `str.lower()` are modelled at ASCII
  (`Char.isAlphanum`/`'_'`, `Char.toLower`), which agrees with Python on
  all ASCII text.
* Python `list.sort(key=..., reverse=True)` is a stable descending sort;
  `sortScored` (insertion sort that inserts before the first element of
  smaller-or-equal score) computes exactly that stable descending order.
-/

namespace GPToggleV2

/-! ## Character and substring utilities (InputAnalyzer helpers) -/

/-- ASCII word character, as matched by `\w` in `re.findall(r'\b\w+\b', text)`. -/
def isWordChar (c : Char) : Bool :=
  c.isAlphanum || c == '_'

/-- Count maximal runs of word characters: `len(re.findall(r'\b\w+\b', text))`.
The running `prev` flag records whether the previous character was a word
character. -/
def countRuns : List Char → Bool → Nat
  | [], _ => 0
  | c :: cs, prev =>
      (if isWordChar c && !prev then 1 else 0) + countRuns cs (isWordChar c)

/-- `InputAnalyzer.count_words`. -/
def count_words (s : String) : Nat :=
  countRuns s.data false

/-- `nd` is a leading segment of `l` (Boolean checker). -/
def leadsWith : List Char → List Char → Bool
  | [], _ => true
  | _ :: _, [] => false
  | a :: as, b :: bs => a == b && leadsWith as bs

/-- `nd` occurs contiguously somewhere inside `hay` (Python `nd in hay`). -/
def hasSegment (nd : List Char) : List Char → Bool
  | [] => nd.isEmpty
  | c :: tl => leadsWith nd (c :: tl) || hasSegment nd tl

/-- Lower-cased character data of a string (`text.lower()`, at ASCII). -/
def lowerData (s : String) : List Char :=
  s.data.map Char.toLower

/-- `InputAnalyzer.contains_keywords`: case-insensitive *substring* search of
each keyword in the text (`keyword.lower() in text_lower`). -/
def contains_keywords (text : String) (keywords : List String) : Bool :=
  keywords.any fun k => hasSegment (lowerData k) (lowerData text)

/-! ## Keyword tables (`InputAnalyzer.__init__`) -/

def VISION_KEYWORDS : List String :=
  ["image", "picture", "photo", "diagram", "chart", "screenshot", "graph",
   "infographic", "illustration", "visual", "look at this", "analyze this image"]

def CODE_KEYWORDS : List String :=
  ["code", "programming", "function", "algorithm", "javascript", "python", "java",
   "c++", "typescript", "html", "css", "react", "node", "express", "coding",
   "bug", "debug", "script", "implementation", "software", "developer", "compile"]

def MATH_KEYWORDS : List String :=
  ["math", "calculation", "equation", "formula", "calculus", "algebra", "statistics",
   "probability", "numerical", "computation", "solve", "geometric", "matrix", "vector"]

def CREATIVE_KEYWORDS : List String :=
  ["creative", "story", "poem", "fiction", "narrative", "script", "screenplay",
   "artistic", "imaginative", "design", "invent", "create", "novel", "write"]

def REASONING_KEYWORDS : List String :=
  ["explain", "reasoning", "logic", "rationale", "justify", "argument", "analyze",
   "deduce", "infer", "step-by-step", "step by step", "breakdown", "systematic"]

/-! ## Token estimation and complexity (`InputAnalyzer`) -/

/-- Python `round(n / 4)` for a natural `n`: round-half-to-even on the exact
rational `n/4` (the float is exact for these magnitudes). -/
def round_div4 (n : Nat) : Nat :=
  let q := n / 4
  let r := n % 4
  if r < 2 then q
  else if r = 2 then (if q % 2 = 0 then q else q + 1)
  else q + 1

/-- `InputAnalyzer.estimate_tokens`:
`max(round(len(text)/4), round(count_words(text) * 0.75))`. -/
def estimate_tokens (s : String) : Nat :=
  max (round_div4 s.length) (round_div4 (3 * count_words s))

/-- `InputAnalyzer.assess_complexity`: 1–5 complexity rating. -/
def assess_complexity (text : String) : Int :=
  let word_count := count_words text
  let token_count := estimate_tokens text
  let base : Int :=
    1 + (if word_count > 500 || token_count > 750 then 1 else 0)
      + (if word_count > 1000 || token_count > 1500 then 1 else 0)
  let requirement_count : Nat :=
    (if contains_keywords text CODE_KEYWORDS then 1 else 0)
    + (if contains_keywords text MATH_KEYWORDS then 1 else 0)
    + (if contains_keywords text REASONING_KEYWORDS then 1 else 0)
  let total : Int :=
    base + (if requirement_count ≥ 2 then 1 else 0)
         + (if requirement_count ≥ 3 then 1 else 0)
  min total 5

/-- The `Requirements` dictionary returned by
`InputAnalyzer.analyze_requirements`. -/
structure Requirements where
  token_count : Nat
  word_count : Nat
  needs_vision : Bool
  needs_code : Bool
  needs_math : Bool
  needs_creativity : Bool
  needs_reasoning : Bool
  complexity : Int
  min_context_window : Int
  is_multimodal : Bool
  domains : List String
  deriving DecidableEq, Repr

/-- `InputAnalyzer.analyze_requirements`. -/
def analyze_requirements (prompt : String) : Requirements :=
  let token_count := estimate_tokens prompt
  let word_count := count_words prompt
  let needs_vision := contains_keywords prompt VISION_KEYWORDS
  let needs_code := contains_keywords prompt CODE_KEYWORDS
  let needs_math := contains_keywords prompt MATH_KEYWORDS
  let needs_creativity := contains_keywords prompt CREATIVE_KEYWORDS
  let needs_reasoning := contains_keywords prompt REASONING_KEYWORDS
  let complexity := assess_complexity prompt
  let min_context_window : Int := max ((token_count : Int) * 4) 1000
  let domains : List String :=
    (if needs_code then ["code"] else [])
    ++ (if needs_math then ["math"] else [])
    ++ (if needs_creativity then ["creative"] else [])
    ++ (if needs_reasoning then ["reasoning"] else [])
  let domains := if domains = [] then ["general"] else domains
  { token_count := token_count
    word_count := word_count
    needs_vision := needs_vision
    needs_code := needs_code
    needs_math := needs_math
    needs_creativity := needs_creativity
    needs_reasoning := needs_reasoning
    complexity := complexity
    min_context_window := min_context_window
    is_multimodal := needs_vision
    domains := domains }

/-! ## Model descriptors and the registry (`ModelRegistry`) -/

/-- A model-information dictionary. Fields read with `dict.get` (and hence
possibly absent) are `Option`; `capabilities` and `tiers` default to `[]`
when absent, matching `model.get(..., [])` / the falsiness of a missing or
empty list. -/
structure ModelInfo where
  provider : String
  model_id : String
  display_name : Option String := none
  capabilities : List String := []
  tiers : List String := []
  context_window : Option Int := none
  intelligence : Option Int := none
  speed : Option Int := none
  deriving DecidableEq, Repr

/-- The dict key `f"{provider}:{model_id}"`. -/
def model_key (m : ModelInfo) : String :=
  m.provider ++ ":" ++ m.model_id

/-- `ModelRegistry`: an insertion-ordered map, embedded as an association
list (Python dicts preserve insertion order, and updating an existing key
keeps its position). -/
structure Registry where
  models : List (String × ModelInfo)
  deriving DecidableEq, Repr

/-- Insert-or-replace for the insertion-ordered map: `self.models[key] = m`.
Replacing an existing key keeps its position; a new key is appended. -/
def insertReplace : List (String × ModelInfo) → String → ModelInfo → List (String × ModelInfo)
  | [], k, m => [(k, m)]
  | (k', m') :: tl, k, m =>
      if k' = k then (k, m) :: tl else (k', m') :: insertReplace tl k m

/-- `ModelRegistry.register_model`. Raising `ValueError` is embedded as
`Except.error`; the unchanged registry stays with the caller, so the
atomicity of a failed registration is by construction. -/
def register_model (reg : Registry) (m : ModelInfo) : Except String Registry :=
  if m.provider = "" || m.model_id = "" then
    .error "Model must have both provider and model_id attributes"
  else
    .ok ⟨insertReplace reg.models (model_key m) m⟩

/-- `ModelRegistry.get_all_models`: `list(self.models.values())`. -/
def get_all_models (reg : Registry) : List ModelInfo :=
  reg.models.map (·.2)

/-- `ModelRegistry.get_models_by_tier`:
`model.get("tiers") and tier in model.get("tiers", [])`. -/
def get_models_by_tier (reg : Registry) (tier : String) : List ModelInfo :=
  (get_all_models reg).filter fun m => !m.tiers.isEmpty && m.tiers.contains tier

/-- `ModelRegistry.get_models_by_provider`. -/
def get_models_by_provider (reg : Registry) (provider : String) : List ModelInfo :=
  (get_all_models reg).filter fun m => m.provider == provider

/-- `ModelRegistry.get_models_by_capability`. -/
def get_models_by_capability (reg : Registry) (capability : String) : List ModelInfo :=
  (get_all_models reg).filter fun m =>
    !m.capabilities.isEmpty && m.capabilities.contains capability

/-- `ModelRegistry.has_model`. -/
def has_model (reg : Registry) (provider mid : String) : Bool :=
  reg.models.any fun p => p.1 == provider ++ ":" ++ mid

/-- `ModelRegistry.get_model`: `self.models.get(f"{provider}:{model_id}")`. -/
def get_model (reg : Registry) (provider mid : String) : Option ModelInfo :=
  (reg.models.find? fun p => p.1 == provider ++ ":" ++ mid).map (·.2)

/-! ## The scorer (`ModelScorer.score_model`)

The scorer's weights (`ModelScorer.__init__`): vision 50, context_window 20,
intelligence 10, code 25, math 25, reasoning 30, creativity 15, speed 15,
plus the per-provider domain-bonus table. Each additive term of the source
is one `*_step` function returning its score contribution and the reasons
it appends, in source order. -/

structure ScoreResult where
  score : Int
  reasons : List String
  deriving DecidableEq, Repr

/-- The hard-disqualification result returned when vision is required but
absent. -/
def disqualified_result : ScoreResult :=
  { score := -9999, reasons := ["lacks required vision capability"] }

/-- Context-window term: `+20` when the window suffices, `-20 * 1.5 = -30`
with reason `"limited context window"` when it falls short; skipped when the
`context_window` attribute is absent or `0` (falsy). -/
def context_step (m : ModelInfo) (r : Requirements) : Int × List String :=
  match m.context_window with
  | none => (0, [])
  | some c =>
      if c ≠ 0 then
        if r.min_context_window ≤ c then (20, [])
        else (-30, ["limited context window"])
      else (0, [])

/-- Vision-bonus term: `+50` when vision is needed and present. -/
def vision_step (m : ModelInfo) (r : Requirements) : Int × List String :=
  if r.needs_vision && m.capabilities.contains "vision" then
    (50, ["supports image analysis"])
  else (0, [])

/-- Intelligence-vs-complexity term; skipped when the `intelligence`
attribute is absent or `0` (falsy). `delta ≥ 0` earns `10*delta + 20`;
`delta < 0` costs `|delta| * 10 * 1.5 = 15*|delta|`. -/
def intelligence_step (m : ModelInfo) (r : Requirements) : Int × List String :=
  match m.intelligence with
  | none => (0, [])
  | some i =>
      if i ≠ 0 then
        let delta := i - r.complexity
        if 0 ≤ delta then
          (delta * 10 + 20,
           if 1 < delta then
             ["high intelligence rating (" ++ toString i ++ "/5)"]
           else [])
        else
          (-((r.complexity - i) * 15),
           ["lower intelligence rating (" ++ toString i ++ "/5)"])
      else (0, [])

/-- Code-capability bonus. -/
def code_step (m : ModelInfo) (r : Requirements) : Int × List String :=
  if r.needs_code && m.capabilities.contains "code" then
    (25, ["strong code capabilities"])
  else (0, [])

/-- Math bonus, using `intelligence >= 4` (and truthy) as the proxy. -/
def math_step (m : ModelInfo) (r : Requirements) : Int × List String :=
  match m.intelligence with
  | none => (0, [])
  | some i =>
      if r.needs_math && (i ≠ 0) && (4 ≤ i) then
        (25, ["strong math capabilities"])
      else (0, [])

/-- Reasoning-capability bonus. -/
def reasoning_step (m : ModelInfo) (r : Requirements) : Int × List String :=
  if r.needs_reasoning && m.capabilities.contains "reasoning" then
    (30, ["specialized reasoning capabilities"])
  else (0, [])

/-- Creativity-capability bonus. -/
def creativity_step (m : ModelInfo) (r : Requirements) : Int × List String :=
  if r.needs_creativity && m.capabilities.contains "creativity" then
    (15, ["creative capabilities"])
  else (0, [])

/-- Speed bonus for low-complexity requests; `speed` must be present, truthy
and at least 4. -/
def speed_step (m : ModelInfo) (r : Requirements) : Int × List String :=
  match m.speed with
  | none => (0, [])
  | some sp =>
      if r.complexity ≤ 3 && (sp ≠ 0) && (4 ≤ sp) then
        (15, ["fast response times (" ++ toString sp ++ "/5)"])
      else (0, [])

/-- The `(provider, domain) → bonus` table of `ModelScorer.__init__`. -/
def provider_bonus (p d : String) : Option Int :=
  if p = "openai" then (if d = "code" then some 10 else none)
  else if p = "anthropic" then
    (if d = "reasoning" then some 10
     else if d = "creativity" then some 10 else none)
  else if p = "vertex" then (if d = "math" then some 5 else none)
  else if p = "xai" then (if d = "reasoning" then some 5 else none)
  else none

/-- Accumulated provider-affinity bonus over the requirement's domains. -/
def provider_score (p : String) (domains : List String) : Int :=
  domains.foldl (fun acc d => acc + (provider_bonus p d).getD 0) 0

/-- Reasons recorded by the provider-affinity loop, in domain order. -/
def provider_reasons (p : String) (domains : List String) : List String :=
  domains.filterMap fun d =>
    (provider_bonus p d).map fun _ => p ++ "\u0027s strength in " ++ d

/-- Total score of the additive (non-disqualified) path of
`ModelScorer.score_model`, in source order. -/
def additive_score (m : ModelInfo) (r : Requirements) : Int :=
  (context_step m r).1 + (vision_step m r).1 + (intelligence_step m r).1
  + (code_step m r).1 + (math_step m r).1 + (reasoning_step m r).1
  + (creativity_step m r).1 + (speed_step m r).1
  + provider_score m.provider r.domains

/-- Reasons accumulated on the additive path, in the order the source
appends them. -/
def additive_reasons (m : ModelInfo) (r : Requirements) : List String :=
  (context_step m r).2 ++ (vision_step m r).2 ++ (intelligence_step m r).2
  ++ (code_step m r).2 ++ (math_step m r).2 ++ (reasoning_step m r).2
  ++ (creativity_step m r).2 ++ (speed_step m r).2
  ++ provider_reasons m.provider r.domains

/-- `ModelScorer.score_model`: hard disqualification when vision is required
but missing, otherwise the additive score and reasons. -/
def score_model (m : ModelInfo) (r : Requirements) : ScoreResult :=
  if r.needs_vision && !(m.capabilities.contains "vision") then
    disqualified_result
  else
    { score := additive_score m r, reasons := additive_reasons m r }

/-- `ModelScorer.generate_explanation`. -/
def generate_explanation (m : ModelInfo) (reasons : List String) : String :=
  let display_name :=
    match m.display_name with
    | some d => if d = "" then m.model_id else d
    | none => m.model_id
  let body :=
    match reasons with
    | [] => "is well-suited for general tasks"
    | [r] => r
    | _ :: _ :: _ =>
        String.intercalate ", " reasons.dropLast ++ " and " ++ reasons.getLastD ""
  "Selected " ++ display_name ++ " because it " ++ body ++ "."

/-! ## The orchestrator (`GPToggle`) -/

/-- One element of the `scored_models` working list. -/
structure Scored where
  model : ModelInfo
  score : Int
  reasons : List String
  deriving DecidableEq, Repr

/-- Insert into a descending-by-score list, before the first element of
smaller-or-equal score (so that earlier elements win ties). -/
def ordIns (x : Scored) : List Scored → List Scored
  | [] => [x]
  | y :: ys => if y.score ≤ x.score then x :: y :: ys else y :: ordIns x ys

/-- `scored_models.sort(key=lambda x: x["score"], reverse=True)`: the stable
descending sort of the working list. -/
def sortScored : List Scored → List Scored
  | [] => []
  | x :: xs => ordIns x (sortScored xs)

/-- The recommendation dictionary. The fallback branch of the source builds
a dict without `requirements`/`score` keys; those fields are `none` there. -/
structure Recommendation where
  provider : String
  model : String
  reason : String
  requirements : Option Requirements := none
  score : Option Int := none
  deriving DecidableEq, Repr

/-- The fixed fallback recommendation of `GPToggle.recommend_model`. -/
def fallback_recommendation : Recommendation :=
  { provider := "openai"
    model := "gpt-3.5-turbo"
    reason := "No eligible models found, using fallback" }

/-- Candidate enumeration of `recommend_model`: by tier when the options
dict contains a `"tier"` key, otherwise all models. -/
def candidate_models (reg : Registry) (tierOpt : Option String) : List ModelInfo :=
  match tierOpt with
  | some t => get_models_by_tier reg t
  | none => get_all_models reg

/-- The scored working list built by `recommend_model` /
`get_task_recommendations`. -/
def scored_models (reg : Registry) (prompt : String) (tierOpt : Option String) :
    List Scored :=
  (candidate_models reg tierOpt).map fun m =>
    let result := score_model m (analyze_requirements prompt)
    { model := m, score := result.score, reasons := result.reasons }

/-- The dictionary `recommend_model` returns for the selected entry. -/
def select_output (r : Requirements) (s : Scored) : Recommendation :=
  { provider := s.model.provider
    model := s.model.model_id
    reason := generate_explanation s.model s.reasons
    requirements := some r
    score := some s.score }

/-- `GPToggle.recommend_model`. The second `fallback_recommendation` arm is
unreachable (`sortScored` preserves length), kept only to make the match
total. -/
def recommend_model (reg : Registry) (prompt : String) (tierOpt : Option String) :
    Recommendation :=
  let requirements := analyze_requirements prompt
  let models := candidate_models reg tierOpt
  if models.isEmpty then fallback_recommendation
  else
    match sortScored (scored_models reg prompt tierOpt) with
    | [] => fallback_recommendation
    | s :: _ => select_output requirements s

/-- One entry of the `recommendations` list of `get_task_recommendations`;
`strength` is present exactly when the model dict has an `intelligence`
key. -/
structure TaskRec where
  provider : String
  model : String
  reason : String
  strength : Option String := none
  deriving DecidableEq, Repr

structure TaskRecommendations where
  overall : Recommendation
  recommendations : List TaskRec
  deriving DecidableEq, Repr

/-- `GPToggle.get_task_recommendations`: the overall recommendation plus the
top-3 scored models, formatted. -/
def get_task_recommendations (reg : Registry) (prompt : String)
    (tierOpt : Option String) : TaskRecommendations :=
  let overall := recommend_model reg prompt tierOpt
  let top := (sortScored (scored_models reg prompt tierOpt)).take 3
  { overall := overall
    recommendations := top.map fun s =>
      { provider := s.model.provider
        model := s.model.model_id
        reason := generate_explanation s.model s.reasons
        strength := s.model.intelligence.map fun i =>
          "Intelligence: " ++ toString i ++ "/5" } }

/-! ## `GPToggle.__init__` / `register_fallback_models` -/

/-- The built-in `gpt-3.5-turbo` fallback descriptor (always registered). -/
def gpt35_model : ModelInfo :=
  { provider := "openai"
    model_id := "gpt-3.5-turbo"
    display_name := some "GPT-3.5 Turbo"
    capabilities := ["text", "code"]
    tiers := ["free"]
    context_window := some 16000
    intelligence := some 3
    speed := some 4 }

/-- The `claude-instant-1` descriptor, registered only when an
`"anthropic"` API key is configured. -/
def claude_instant_model : ModelInfo :=
  { provider := "anthropic"
    model_id := "claude-instant-1"
    display_name := some "Claude Instant"
    capabilities := ["text", "reasoning"]
    tiers := ["free"]
    context_window := some 16000
    intelligence := some 3
    speed := some 4 }

/-- `register_model` for registrations that are known to validate; the error
arm is unreachable for the two built-in descriptors. -/
def registerD (reg : Registry) (m : ModelInfo) : Registry :=
  match register_model reg m with
  | .ok reg' => reg'
  | .error _ => reg

/-- The registry produced by `GPToggle.__init__` (which always calls
`register_fallback_models`), as a function of the configured API-key
names. -/
def gptoggle_init (api_keys : List String) : Registry :=
  let reg := registerD ⟨[]⟩ gpt35_model
  if api_keys.contains "anthropic" then registerD reg claude_instant_model
  else reg

/-! ## Concrete fixtures used by counterexamples and witnesses -/

/-- A text-only descriptor (no vision capability). -/
def text_only_model : ModelInfo :=
  { provider := "acme"
    model_id := "m1"
    display_name := some "M1"
    capabilities := ["text"]
    tiers := ["free"]
    context_window := some 16000
    intelligence := some 3
    speed := some 4 }

/-- A vision-capable descriptor. -/
def vision_model : ModelInfo :=
  { provider := "acme"
    model_id := "v1"
    display_name := some "V1"
    capabilities := ["text", "vision"]
    tiers := ["free"]
    context_window := some 16000
    intelligence := some 4
    speed := some 4 }

/-- A registry holding only the text-only descriptor. -/
def reg_single : Registry := ⟨[("acme:m1", text_only_model)]⟩

/-- A registry holding the vision-capable descriptor first, then the
text-only one. -/
def reg_pair : Registry := ⟨[("acme:v1", vision_model), ("acme:m1", text_only_model)]⟩

/-! ## Spec-side whole-word matcher

`occursAsWholeWord` is *not* a translation of the source: it renders the
spec sentence "keyword matching must use word-boundary semantics" (`\b`
anchors, case-insensitive) and exists only to be compared with the source's
substring matcher. -/

/-- Case-insensitive whole-word (word-boundary anchored) occurrence of `kw`
in `text`, following the spec's words rather than the source. -/
def occursAsWholeWord (kw text : String) : Bool :=
  let nd := lowerData kw
  let hay := lowerData text
  (List.range (hay.length + 1)).any fun i =>
    leadsWith nd (hay.drop i)
    && (i = 0 || !isWordChar (hay.getD (i - 1) ' '))
    && (hay.length ≤ i + nd.length || !isWordChar (hay.getD (i + nd.length) ' '))

/-! ## Auxiliary definitions used only by statements and proofs -/

/-- Number of registry entries stored under key `k`. -/
def countKey (l : List (String × ModelInfo)) (k : String) : Nat :=
  (l.filter fun p => p.1 == k).length

/-- The value stored under key `k` (first occurrence). -/
def lookup_key (l : List (String × ModelInfo)) (k : String) : Option ModelInfo :=
  (l.find? fun p => p.1 == k).map (·.2)

/-- The first element of a list attaining the maximal score (later elements
replace the current best only when strictly greater). -/
def firstMaxL : List Scored → Option Scored
  | [] => none
  | x :: xs =>
      match firstMaxL xs with
      | none => some x
      | some m => if x.score < m.score then some m else some x

/-! ## Substring machinery -/

theorem leadsWith_iff (nd : List Char) : ∀ l : List Char,
    leadsWith nd l = true ↔ ∃ t, l = nd ++ t := by
  induction nd with
  | nil => intro l; simp [leadsWith]
  | cons a as ih =>
    intro l
    cases l with
    | nil => simp [leadsWith]
    | cons b bs =>
      simp only [leadsWith, Bool.and_eq_true, beq_iff_eq, ih, List.cons_append]
      constructor
      · rintro ⟨rfl, t, rfl⟩
        exact ⟨t, rfl⟩
      · rintro ⟨t, h⟩
        injection h with h1 h2
        exact ⟨h1.symm, t, h2⟩

theorem hasSegment_iff (nd : List Char) : ∀ hay : List Char,
    hasSegment nd hay = true ↔ ∃ s t, hay = s ++ nd ++ t := by
  intro hay
  induction hay with
  | nil =>
    simp only [hasSegment, List.isEmpty_iff]
    constructor
    · rintro rfl
      exact ⟨[], [], rfl⟩
    · rintro ⟨s, t, h⟩
      rcases List.append_eq_nil.mp h.symm with ⟨h1, h2⟩
      rcases List.append_eq_nil.mp h1 with ⟨-, h3⟩
      exact h3
  | cons c tl ih =>
    simp only [hasSegment, Bool.or_eq_true, leadsWith_iff, ih]
    constructor
    · rintro (⟨t, h⟩ | ⟨s, t, h⟩)
      · exact ⟨[], t, by simpa using h⟩
      · exact ⟨c :: s, t, by simp [h]⟩
    · rintro ⟨s, t, h⟩
      cases s with
      | nil =>
        exact Or.inl ⟨t, by simpa using h⟩
      | cons c' s' =>
        right
        injection h with h1 h2
        exact ⟨s', t, h2⟩

theorem contains_keywords_iff (text : String) (kws : List String) :
    contains_keywords text kws = true ↔
      ∃ k ∈ kws, ∃ s t, lowerData text = s ++ lowerData k ++ t := by
  simp only [contains_keywords, List.any_eq_true, hasSegment_iff]

/-! ## Score arithmetic: every additive term is a multiple of 5, and is
bounded below -/

theorem dvd5_context_step (m : ModelInfo) (r : Requirements) :
    (5 : Int) ∣ (context_step m r).1 := by
  rcases hcw : m.context_window with _ | c
  · simp [context_step, hcw]
  · simp only [context_step, hcw]
    split_ifs <;> dsimp only <;> omega

theorem dvd5_vision_step (m : ModelInfo) (r : Requirements) :
    (5 : Int) ∣ (vision_step m r).1 := by
  unfold vision_step
  split_ifs <;> dsimp only <;> omega

theorem dvd5_intelligence_step (m : ModelInfo) (r : Requirements) :
    (5 : Int) ∣ (intelligence_step m r).1 := by
  rcases hi : m.intelligence with _ | i
  · simp [intelligence_step, hi]
  · simp only [intelligence_step, hi]
    split_ifs <;> dsimp only <;> omega

theorem dvd5_code_step (m : ModelInfo) (r : Requirements) :
    (5 : Int) ∣ (code_step m r).1 := by
  unfold code_step
  split_ifs <;> dsimp only <;> omega

theorem dvd5_math_step (m : ModelInfo) (r : Requirements) :
    (5 : Int) ∣ (math_step m r).1 := by
  rcases hi : m.intelligence with _ | i
  · simp [math_step, hi]
  · simp only [math_step, hi]
    split_ifs <;> dsimp only <;> omega

theorem dvd5_reasoning_step (m : ModelInfo) (r : Requirements) :
    (5 : Int) ∣ (reasoning_step m r).1 := by
  unfold reasoning_step
  split_ifs <;> dsimp only <;> omega

theorem dvd5_creativity_step (m : ModelInfo) (r : Requirements) :
    (5 : Int) ∣ (creativity_step m r).1 := by
  unfold creativity_step
  split_ifs <;> dsimp only <;> omega

theorem dvd5_speed_step (m : ModelInfo) (r : Requirements) :
    (5 : Int) ∣ (speed_step m r).1 := by
  rcases hs : m.speed with _ | sp
  · simp [speed_step, hs]
  · simp only [speed_step, hs]
    split_ifs <;> dsimp only <;> omega

theorem dvd5_provider_bonus (p d : String) :
    (5 : Int) ∣ (provider_bonus p d).getD 0 := by
  unfold provider_bonus
  split_ifs <;> simp <;> omega

theorem dvd5_provider_score_aux (p : String) (l : List String) :
    ∀ a : Int, (5 : Int) ∣ a →
      (5 : Int) ∣ l.foldl (fun acc d => acc + (provider_bonus p d).getD 0) a := by
  induction l with
  | nil => intro a ha; simpa using ha
  | cons d l ih =>
    intro a ha
    exact ih _ (dvd_add ha (dvd5_provider_bonus p d))

theorem dvd5_provider_score (p : String) (l : List String) :
    (5 : Int) ∣ provider_score p l :=
  dvd5_provider_score_aux p l 0 ⟨0, rfl⟩

theorem dvd5_additive_score (m : ModelInfo) (r : Requirements) :
    (5 : Int) ∣ additive_score m r := by
  unfold additive_score
  have h1 := dvd5_context_step m r
  have h2 := dvd5_vision_step m r
  have h3 := dvd5_intelligence_step m r
  have h4 := dvd5_code_step m r
  have h5 := dvd5_math_step m r
  have h6 := dvd5_reasoning_step m r
  have h7 := dvd5_creativity_step m r
  have h8 := dvd5_speed_step m r
  have h9 := dvd5_provider_score m.provider r.domains
  omega

theorem additive_score_ne_sentinel (m : ModelInfo) (r : Requirements) :
    additive_score m r ≠ -9999 := by
  intro h
  have := dvd5_additive_score m r
  omega

theorem context_step_lb (m : ModelInfo) (r : Requirements) :
    -30 ≤ (context_step m r).1 := by
  rcases hcw : m.context_window with _ | c
  · simp [context_step, hcw]
  · simp only [context_step, hcw]
    split_ifs <;> dsimp only <;> omega

theorem vision_step_nonneg (m : ModelInfo) (r : Requirements) :
    0 ≤ (vision_step m r).1 := by
  unfold vision_step
  split_ifs <;> dsimp only <;> omega

theorem intelligence_step_lb (m : ModelInfo) (r : Requirements)
    (hi : 0 ≤ m.intelligence.getD 0) (hc : r.complexity ≤ 5) :
    -75 ≤ (intelligence_step m r).1 := by
  rcases hint : m.intelligence with _ | i
  · simp [intelligence_step, hint]
  · rw [hint] at hi
    simp only [Option.getD_some] at hi
    simp only [intelligence_step, hint]
    split_ifs <;> dsimp only <;> omega

theorem code_step_nonneg (m : ModelInfo) (r : Requirements) :
    0 ≤ (code_step m r).1 := by
  unfold code_step
  split_ifs <;> dsimp only <;> omega

theorem math_step_nonneg (m : ModelInfo) (r : Requirements) :
    0 ≤ (math_step m r).1 := by
  rcases hi : m.intelligence with _ | i
  · simp [math_step, hi]
  · simp only [math_step, hi]
    split_ifs <;> dsimp only <;> omega

theorem reasoning_step_nonneg (m : ModelInfo) (r : Requirements) :
    0 ≤ (reasoning_step m r).1 := by
  unfold reasoning_step
  split_ifs <;> dsimp only <;> omega

theorem creativity_step_nonneg (m : ModelInfo) (r : Requirements) :
    0 ≤ (creativity_step m r).1 := by
  unfold creativity_step
  split_ifs <;> dsimp only <;> omega

theorem speed_step_nonneg (m : ModelInfo) (r : Requirements) :
    0 ≤ (speed_step m r).1 := by
  rcases hs : m.speed with _ | sp
  · simp [speed_step, hs]
  · simp only [speed_step, hs]
    split_ifs <;> dsimp only <;> omega

theorem provider_bonus_nonneg (p d : String) :
    0 ≤ (provider_bonus p d).getD 0 := by
  unfold provider_bonus
  split_ifs <;> simp

theorem provider_score_nonneg_aux (p : String) (l : List String) :
    ∀ a : Int, 0 ≤ a →
      0 ≤ l.foldl (fun acc d => acc + (provider_bonus p d).getD 0) a := by
  induction l with
  | nil => intro a ha; simpa using ha
  | cons d l ih =>
    intro a ha
    exact ih _ (add_nonneg ha (provider_bonus_nonneg p d))

theorem provider_score_nonneg (p : String) (l : List String) :
    0 ≤ provider_score p l :=
  provider_score_nonneg_aux p l 0 le_rfl

/-- Any non-disqualified score is at least `-105` for descriptors with a
non-negative intelligence rating, given the analyzer's complexity cap. -/
theorem additive_score_lb (m : ModelInfo) (r : Requirements)
    (hi : 0 ≤ m.intelligence.getD 0) (hc : r.complexity ≤ 5) :
    -105 ≤ additive_score m r := by
  unfold additive_score
  have h1 := context_step_lb m r
  have h2 := vision_step_nonneg m r
  have h3 := intelligence_step_lb m r hi hc
  have h4 := code_step_nonneg m r
  have h5 := math_step_nonneg m r
  have h6 := reasoning_step_nonneg m r
  have h7 := creativity_step_nonneg m r
  have h8 := speed_step_nonneg m r
  have h9 := provider_score_nonneg m.provider r.domains
  omega

/-- The analyzer's complexity always lies in `[1, 5]`. -/
theorem assess_complexity_bounds (text : String) :
    1 ≤ assess_complexity text ∧ assess_complexity text ≤ 5 := by
  unfold assess_complexity
  dsimp only
  split_ifs <;> omega

theorem analyze_complexity_bounds (prompt : String) :
    1 ≤ (analyze_requirements prompt).complexity ∧
      (analyze_requirements prompt).complexity ≤ 5 :=
  assess_complexity_bounds prompt

/-! ## Sorting machinery: the head of the stable descending sort is the
first element attaining the maximal score -/

theorem length_ordIns (x : Scored) : ∀ l : List Scored,
    (ordIns x l).length = l.length + 1 := by
  intro l
  induction l with
  | nil => rfl
  | cons y ys ih =>
    unfold ordIns
    split_ifs <;> simp [ih]

theorem length_sortScored : ∀ l : List Scored,
    (sortScored l).length = l.length := by
  intro l
  induction l with
  | nil => rfl
  | cons x xs ih => simp [sortScored, length_ordIns, ih]

theorem sortScored_ne_nil {l : List Scored} (h : l ≠ []) : sortScored l ≠ [] := by
  intro hs
  apply h
  have := length_sortScored l
  rw [hs] at this
  exact List.length_eq_zero.mp this.symm

theorem head?_ordIns (x : Scored) : ∀ l : List Scored,
    (ordIns x l).head? =
      some (match l.head? with
            | none => x
            | some y => if y.score ≤ x.score then x else y) := by
  intro l
  cases l with
  | nil => rfl
  | cons y ys =>
    unfold ordIns
    split_ifs with h <;> simp [h]

theorem firstMaxL_eq_none {l : List Scored} : firstMaxL l = none ↔ l = [] := by
  cases l with
  | nil => simp [firstMaxL]
  | cons x xs =>
    simp only [firstMaxL]
    constructor
    · intro h
      rcases hm : firstMaxL xs with _ | m
      · rw [hm] at h
        dsimp only at h
        cases h
      · rw [hm] at h
        dsimp only at h
        split_ifs at h
    · intro h
      exact absurd h (List.cons_ne_nil x xs)

theorem head?_sortScored : ∀ l : List Scored,
    (sortScored l).head? = firstMaxL l := by
  intro l
  induction l with
  | nil => rfl
  | cons x xs ih =>
    simp only [sortScored, head?_ordIns, firstMaxL]
    rw [ih]
    rcases hm : firstMaxL xs with _ | m
    · simp
    · simp only []
      by_cases h : x.score < m.score
      · rw [if_pos h, if_neg (not_le.mpr h)]
      · rw [if_neg h, if_pos (not_lt.mp h)]

/-- The first maximum decomposes the list: everything before it scores
strictly less, and nothing in the list scores more. -/
theorem firstMaxL_decomp : ∀ l : List Scored, ∀ s : Scored,
    firstMaxL l = some s →
      ∃ l₁ l₂, l = l₁ ++ s :: l₂ ∧ (∀ t ∈ l₁, t.score < s.score) ∧
        ∀ t ∈ l, t.score ≤ s.score := by
  intro l
  induction l with
  | nil => intro s h; simp [firstMaxL] at h
  | cons x xs ih =>
    intro s h
    simp only [firstMaxL] at h
    rcases hm : firstMaxL xs with _ | m <;> rw [hm] at h
    · have hxs : xs = [] := firstMaxL_eq_none.mp hm
      subst hxs
      simp at h
      subst h
      exact ⟨[], [], rfl, by simp, by simp⟩
    · rcases ih m hm with ⟨l₁, l₂, hsplit, hlt, hle⟩
      dsimp only at h
      split_ifs at h with hlt' <;> injection h with h <;> subst h
      · refine ⟨x :: l₁, l₂, by simp [hsplit], ?_, ?_⟩
        · intro t ht
          rcases List.mem_cons.mp ht with rfl | ht
          · exact hlt'
          · exact hlt t ht
        · intro t ht
          rcases List.mem_cons.mp ht with rfl | ht
          · exact le_of_lt hlt'
          · exact hle t ht
      · refine ⟨[], xs, rfl, by simp, ?_⟩
        intro t ht
        rcases List.mem_cons.mp ht with rfl | ht
        · exact le_rfl
        · exact le_trans (hle t ht) (not_lt.mp hlt')

/-! ## Registry machinery -/

theorem countKey_nil (k : String) : countKey [] k = 0 := rfl

theorem countKey_cons (k' : String) (m' : ModelInfo)
    (tl : List (String × ModelInfo)) (k : String) :
    countKey ((k', m') :: tl) k = (if k' = k then 1 else 0) + countKey tl k := by
  unfold countKey
  rw [List.filter_cons]
  by_cases h : k' = k
  · simp [h]
    omega
  · simp [h]

theorem countKey_insertReplace_self :
    ∀ (l : List (String × ModelInfo)) (k : String) (m : ModelInfo),
      countKey l k ≤ 1 → countKey (insertReplace l k m) k = 1 := by
  intro l
  induction l with
  | nil =>
    intro k m _
    simp [insertReplace, countKey_cons, countKey_nil]
  | cons p tl ih =>
    intro k m hle
    obtain ⟨k', m'⟩ := p
    rw [countKey_cons] at hle
    unfold insertReplace
    by_cases h : k' = k
    · rw [if_pos h, countKey_cons, if_pos rfl]
      rw [if_pos h] at hle
      omega
    · rw [if_neg h, countKey_cons, if_neg h]
      rw [if_neg h] at hle
      have hih := ih k m (by omega)
      omega

theorem countKey_insertReplace_other :
    ∀ (l : List (String × ModelInfo)) (k : String) (m : ModelInfo) (j : String),
      j ≠ k → countKey (insertReplace l k m) j = countKey l j := by
  intro l
  induction l with
  | nil =>
    intro k m j hj
    have hkj : ¬k = j := fun e => hj e.symm
    simp [insertReplace, countKey_cons, countKey_nil, hkj]
  | cons p tl ih =>
    intro k m j hj
    obtain ⟨k', m'⟩ := p
    unfold insertReplace
    by_cases h : k' = k
    · rw [if_pos h, countKey_cons, countKey_cons]
      subst h
      rfl
    · rw [if_neg h, countKey_cons, countKey_cons, ih k m j hj]

theorem lookup_key_nil (k : String) : lookup_key [] k = none := rfl

theorem lookup_key_cons (k' : String) (m' : ModelInfo)
    (tl : List (String × ModelInfo)) (k : String) :
    lookup_key ((k', m') :: tl) k =
      if k' = k then some m' else lookup_key tl k := by
  unfold lookup_key
  by_cases h : k' = k
  · rw [List.find?_cons_of_pos _ (by simpa using h), if_pos h]
    rfl
  · rw [List.find?_cons_of_neg _ (by simpa using h), if_neg h]

theorem lookup_key_insertReplace_self :
    ∀ (l : List (String × ModelInfo)) (k : String) (m : ModelInfo),
      lookup_key (insertReplace l k m) k = some m := by
  intro l
  induction l with
  | nil =>
    intro k m
    simp [insertReplace, lookup_key_cons, lookup_key_nil]
  | cons p tl ih =>
    intro k m
    obtain ⟨k', m'⟩ := p
    unfold insertReplace
    by_cases h : k' = k
    · rw [if_pos h, lookup_key_cons, if_pos rfl]
    · rw [if_neg h, lookup_key_cons, if_neg h, ih]

theorem lookup_key_insertReplace_other :
    ∀ (l : List (String × ModelInfo)) (k : String) (m : ModelInfo) (j : String),
      j ≠ k → lookup_key (insertReplace l k m) j = lookup_key l j := by
  intro l
  induction l with
  | nil =>
    intro k m j hj
    have hkj : ¬k = j := fun e => hj e.symm
    simp [insertReplace, lookup_key_cons, lookup_key_nil, hkj]
  | cons p tl ih =>
    intro k m j hj
    obtain ⟨k', m'⟩ := p
    unfold insertReplace
    by_cases h : k' = k
    · rw [if_pos h, lookup_key_cons, lookup_key_cons, h]
      have hkj : ¬k = j := fun e => hj e.symm
      rw [if_neg hkj, if_neg hkj]
    · rw [if_neg h, lookup_key_cons, lookup_key_cons, ih k m j hj]

theorem get_model_eq_lookup (reg : Registry) (provider mid : String) :
    get_model reg provider mid = lookup_key reg.models (provider ++ ":" ++ mid) := rfl

/-! ## Orchestrator helper lemmas -/

/-- With no candidates, `recommend_model` takes the fallback branch. -/
theorem recommend_model_of_no_candidates (reg : Registry) (prompt : String)
    (topt : Option String) (h : candidate_models reg topt = []) :
    recommend_model reg prompt topt = fallback_recommendation := by
  unfold recommend_model
  rw [h]
  rfl

/-- With a non-empty candidate set, `recommend_model` returns the output
built from the first maximal-score entry of the scored list. -/
theorem recommend_model_selects (reg : Registry) (prompt : String)
    (topt : Option String) (hne : candidate_models reg topt ≠ []) :
    ∃ s l₁ l₂, scored_models reg prompt topt = l₁ ++ s :: l₂ ∧
      (∀ t ∈ l₁, t.score < s.score) ∧
      (∀ t ∈ scored_models reg prompt topt, t.score ≤ s.score) ∧
      recommend_model reg prompt topt =
        select_output (analyze_requirements prompt) s := by
  have hscored : scored_models reg prompt topt ≠ [] := by
    unfold scored_models
    simpa using hne
  have hsort := sortScored_ne_nil hscored
  obtain ⟨s, rest, hsr⟩ := List.exists_cons_of_ne_nil hsort
  have hhead : (sortScored (scored_models reg prompt topt)).head? = some s := by
    rw [hsr]
    rfl
  rw [head?_sortScored] at hhead
  obtain ⟨l₁, l₂, hsplit, hlt, hle⟩ := firstMaxL_decomp _ s hhead
  refine ⟨s, l₁, l₂, hsplit, hlt, hle, ?_⟩
  unfold recommend_model
  rw [if_neg (by simpa [List.isEmpty_iff] using hne), hsr]

/-- A score that is not the sentinel comes from the additive path. -/
theorem score_model_of_ne_sentinel (m : ModelInfo) (r : Requirements)
    (h : (score_model m r).score ≠ -9999) :
    (score_model m r).score = additive_score m r := by
  unfold score_model at *
  split_ifs at * with hc
  · exact absurd rfl h
  · rfl

/-! ## Claim theorems -/

/-- C7: `analyze_requirements` is total (a Lean function, hence it
terminates and raises nothing on every string); on the empty string it
yields `word_count = 0`, `complexity = 1` and `domains = ["general"]`, and
for every prompt the returned domain list is non-empty (defaulting to
`["general"]`). -/
theorem claim_C7_analyze_requirements_total_defaults :
    (analyze_requirements "").word_count = 0 ∧
    (analyze_requirements "").complexity = 1 ∧
    (analyze_requirements "").domains = ["general"] ∧
    ∀ prompt : String, (analyze_requirements prompt).domains ≠ [] := by
  refine ⟨by decide, by decide, by decide, ?_⟩
  intro prompt
  dsimp only [analyze_requirements]
  split_ifs <;> simp_all

/-- C2: `score_model` returns the sentinel result (score `-9999`, which is
below `-1000`, with the single reason `"lacks required vision capability"`)
exactly when vision is required and absent, and in that case no other term
contributes; no other input produces the sentinel result, so this is the
scorer's only early-return path. -/
theorem claim_C2_vision_hard_disqualification (m : ModelInfo) (r : Requirements) :
    ((-9999 : Int) < -1000) ∧
    (score_model m r = disqualified_result ↔
      (r.needs_vision = true ∧ m.capabilities.contains "vision" = false)) := by
  refine ⟨by norm_num, ?_⟩
  unfold score_model
  by_cases hc : (r.needs_vision && !(m.capabilities.contains "vision")) = true
  · rw [if_pos hc]
    simp only [Bool.and_eq_true, Bool.not_eq_true'] at hc
    exact ⟨fun _ => hc, fun _ => rfl⟩
  · rw [if_neg hc]
    simp only [Bool.and_eq_true, Bool.not_eq_true'] at hc
    constructor
    · intro h
      have hs : additive_score m r = -9999 := congrArg ScoreResult.score h
      exact absurd hs (additive_score_ne_sentinel m r)
    · intro h
      exact absurd h hc

/-- C4: when the candidate enumeration (after the optional tier filter) is
empty, `recommend_model` returns the fixed fallback recommendation
(provider `"openai"`, model `"gpt-3.5-turbo"`, reason
`"No eligible models found, using fallback"`) without failing. -/
theorem claim_C4_empty_candidates_fallback (reg : Registry) (prompt : String)
    (topt : Option String) (h : candidate_models reg topt = []) :
    recommend_model reg prompt topt = fallback_recommendation :=
  recommend_model_of_no_candidates reg prompt topt h

/-- Witness for C4: the empty registry with no tier filter. -/
theorem claim_C4_witness :
    candidate_models ⟨[]⟩ none = [] ∧
    recommend_model ⟨[]⟩ "hello" none = fallback_recommendation :=
  ⟨rfl, claim_C4_empty_candidates_fallback ⟨[]⟩ "hello" none rfl⟩

/-- C3 counterexample: on the prompt `"recreate"` the analyzer sets
`needs_creativity`, although no creative keyword occurs as a whole word in
the text — `"create"` occurs only as a proper substring of `"recreate"`.
This refutes the claim that flags are set only on word-boundary-anchored
occurrences. -/
theorem claim_C3_counterexample :
    (analyze_requirements "recreate").needs_creativity = true ∧
    CREATIVE_KEYWORDS.all (fun k => !(occursAsWholeWord k "recreate")) = true := by
  constructor
  · decide
  · decide

/-- C3 amended: each needs-flag is set iff some keyword of its category
occurs as a case-insensitive *substring* of the text (no word-boundary
anchoring), so a keyword occurring only inside a longer word also sets the
flag. -/
theorem claim_C3_amended_substring_matching (text : String) :
    ((analyze_requirements text).needs_vision = true ↔
      ∃ k ∈ VISION_KEYWORDS, ∃ s t, lowerData text = s ++ lowerData k ++ t) ∧
    ((analyze_requirements text).needs_code = true ↔
      ∃ k ∈ CODE_KEYWORDS, ∃ s t, lowerData text = s ++ lowerData k ++ t) ∧
    ((analyze_requirements text).needs_math = true ↔
      ∃ k ∈ MATH_KEYWORDS, ∃ s t, lowerData text = s ++ lowerData k ++ t) ∧
    ((analyze_requirements text).needs_creativity = true ↔
      ∃ k ∈ CREATIVE_KEYWORDS, ∃ s t, lowerData text = s ++ lowerData k ++ t) ∧
    ((analyze_requirements text).needs_reasoning = true ↔
      ∃ k ∈ REASONING_KEYWORDS, ∃ s t, lowerData text = s ++ lowerData k ++ t) :=
  ⟨contains_keywords_iff text _, contains_keywords_iff text _,
   contains_keywords_iff text _, contains_keywords_iff text _,
   contains_keywords_iff text _⟩

/-! ### Monotonicity of the intelligence-dependent terms (C8) -/

theorem intelligence_step_mono (m : ModelInfo) (r : Requirements) (i1 i2 : Int)
    (hlo : 1 ≤ i1) (h12 : i1 ≤ i2) :
    (intelligence_step { m with intelligence := some i1 } r).1 ≤
      (intelligence_step { m with intelligence := some i2 } r).1 := by
  simp only [intelligence_step]
  split_ifs <;> dsimp only <;> omega

theorem math_step_mono (m : ModelInfo) (r : Requirements) (i1 i2 : Int)
    (_hlo : 1 ≤ i1) (h12 : i1 ≤ i2) :
    (math_step { m with intelligence := some i1 } r).1 ≤
      (math_step { m with intelligence := some i2 } r).1 := by
  simp only [math_step]
  split_ifs with hA hB
  · exact le_rfl
  · exfalso
    simp only [Bool.and_eq_true, decide_eq_true_eq] at hA hB
    exact hB ⟨⟨hA.1.1, by omega⟩, by omega⟩
  · dsimp only
    omega
  · exact le_rfl

/-- C8: for two otherwise-identical descriptors whose intelligence ratings
both lie in 1–5, `score_model` is monotone non-decreasing in the
intelligence rating (both the intelligence-vs-complexity term and the
`intelligence ≥ 4` math proxy are monotone). -/
theorem claim_C8_score_monotone_in_intelligence (r : Requirements) (m : ModelInfo)
    (i1 i2 : Int) (hlo : 1 ≤ i1) (h12 : i1 ≤ i2) (_hhi : i2 ≤ 5) :
    (score_model { m with intelligence := some i1 } r).score ≤
      (score_model { m with intelligence := some i2 } r).score := by
  unfold score_model
  by_cases hdq : (r.needs_vision && !(m.capabilities.contains "vision")) = true
  · rw [if_pos hdq, if_pos hdq]
  · rw [if_neg hdq, if_neg hdq]
    dsimp only
    unfold additive_score
    have e1 : context_step { m with intelligence := some i1 } r
        = context_step { m with intelligence := some i2 } r := rfl
    have e2 : vision_step { m with intelligence := some i1 } r
        = vision_step { m with intelligence := some i2 } r := rfl
    have e3 : code_step { m with intelligence := some i1 } r
        = code_step { m with intelligence := some i2 } r := rfl
    have e4 : reasoning_step { m with intelligence := some i1 } r
        = reasoning_step { m with intelligence := some i2 } r := rfl
    have e5 : creativity_step { m with intelligence := some i1 } r
        = creativity_step { m with intelligence := some i2 } r := rfl
    have e6 : speed_step { m with intelligence := some i1 } r
        = speed_step { m with intelligence := some i2 } r := rfl
    have e7 : provider_score
          ({ m with intelligence := some i1 } : ModelInfo).provider r.domains
        = provider_score
          ({ m with intelligence := some i2 } : ModelInfo).provider r.domains := rfl
    have h1 := intelligence_step_mono m r i1 i2 hlo h12
    have h2 := math_step_mono m r i1 i2 hlo h12
    rw [e1, e2, e3, e4, e5, e6, e7]
    omega

/-- Witness for C8 at concrete intelligence ratings 2 ≤ 4. -/
theorem claim_C8_witness :
    ((1 : Int) ≤ 2 ∧ (2 : Int) ≤ 4 ∧ (4 : Int) ≤ 5) ∧
    (score_model { text_only_model with intelligence := some 2 }
        (analyze_requirements "hello")).score ≤
      (score_model { text_only_model with intelligence := some 4 }
        (analyze_requirements "hello")).score :=
  ⟨by decide,
   claim_C8_score_monotone_in_intelligence (analyze_requirements "hello")
     text_only_model 2 4 (by decide) (by decide) (by decide)⟩

/-! ### Registry claims (C5, C6) -/

theorem countKey_eq_count : ∀ (l : List (String × ModelInfo)) (k : String),
    countKey l k = (l.map Prod.fst).count k := by
  intro l
  induction l with
  | nil => intro k; rfl
  | cons p tl ih =>
    intro k
    obtain ⟨k', m'⟩ := p
    rw [countKey_cons, ih]
    simp only [List.map_cons, List.count_cons]
    by_cases h : k' = k
    · simp [h]
      omega
    · simp [h]

theorem nodup_countKey_le_one {l : List (String × ModelInfo)}
    (h : (l.map Prod.fst).Nodup) (k : String) : countKey l k ≤ 1 := by
  rw [countKey_eq_count]
  exact List.nodup_iff_count_le_one.mp h k

theorem countKey_le_one_nodup {l : List (String × ModelInfo)}
    (h : ∀ k, countKey l k ≤ 1) : (l.map Prod.fst).Nodup :=
  List.nodup_iff_count_le_one.mpr fun k => countKey_eq_count l k ▸ h k

/-- C5: registering a descriptor whose `(provider, model_id)` key is
already present replaces the prior entry without raising; afterwards the
registry holds exactly one entry for that key, and key-uniqueness is
preserved, so registration never duplicates a key. -/
theorem claim_C5_register_replaces_no_duplicates (reg : Registry) (m : ModelInfo)
    (hp : m.provider ≠ "") (hmid : m.model_id ≠ "")
    (hnodup : (reg.models.map Prod.fst).Nodup) :
    ∃ reg' : Registry, register_model reg m = Except.ok reg' ∧
      countKey reg'.models (model_key m) = 1 ∧
      get_model reg' m.provider m.model_id = some m ∧
      (reg'.models.map Prod.fst).Nodup := by
  refine ⟨⟨insertReplace reg.models (model_key m) m⟩, ?_, ?_, ?_, ?_⟩
  · unfold register_model
    rw [if_neg (by simp [hp, hmid])]
  · exact countKey_insertReplace_self _ _ _ (nodup_countKey_le_one hnodup _)
  · rw [get_model_eq_lookup]
    exact lookup_key_insertReplace_self _ _ _
  · refine countKey_le_one_nodup fun k => ?_
    by_cases hk : k = model_key m
    · rw [hk,
        countKey_insertReplace_self _ _ _ (nodup_countKey_le_one hnodup _)]
    · rw [countKey_insertReplace_other _ _ _ _ hk]
      exact nodup_countKey_le_one hnodup k

/-- Witness for C5: re-registering the `"acme:m1"` key of `reg_single` with
a changed descriptor. -/
theorem claim_C5_witness :
    ∃ reg' : Registry,
      register_model reg_single
          { text_only_model with display_name := some "M1b" } = Except.ok reg' ∧
      countKey reg'.models
          (model_key { text_only_model with display_name := some "M1b" }) = 1 ∧
      get_model reg' "acme" "m1" =
          some { text_only_model with display_name := some "M1b" } ∧
      (reg'.models.map Prod.fst).Nodup :=
  claim_C5_register_replaces_no_duplicates reg_single
    { text_only_model with display_name := some "M1b" }
    (by decide) (by decide) (by decide)

/-- C6: `register_model` fails exactly when `provider` or `model_id` is
missing/empty (Python raises `ValueError`; the embedding returns
`Except.error`, leaving the caller's registry untouched, which renders the
atomicity of a failed registration); a successful registration stores the
descriptor under its key and changes no other key. -/
theorem claim_C6_register_validation_atomic (reg : Registry) (m : ModelInfo) :
    ((∃ e, register_model reg m = Except.error e) ↔
      (m.provider = "" ∨ m.model_id = "")) ∧
    ∀ reg' : Registry, register_model reg m = Except.ok reg' →
      get_model reg' m.provider m.model_id = some m ∧
      ∀ k, k ≠ model_key m →
        lookup_key reg'.models k = lookup_key reg.models k ∧
        countKey reg'.models k = countKey reg.models k := by
  by_cases hc : m.provider = "" ∨ m.model_id = ""
  · have hcond : (decide (m.provider = "") || decide (m.model_id = "")) = true := by
      rcases hc with h | h <;> simp [h]
    constructor
    · refine ⟨fun _ => hc, fun _ => ⟨"Model must have both provider and model_id attributes", ?_⟩⟩
      unfold register_model
      rw [if_pos hcond]
    · intro reg' h
      unfold register_model at h
      rw [if_pos hcond] at h
      cases h
  · have hcond : ¬(decide (m.provider = "") || decide (m.model_id = "")) = true := by
      push_neg at hc
      simp [hc.1, hc.2]
    constructor
    · constructor
      · rintro ⟨e, he⟩
        unfold register_model at he
        rw [if_neg hcond] at he
        cases he
      · intro h
        exact absurd h hc
    · intro reg' h
      unfold register_model at h
      rw [if_neg hcond] at h
      injection h with h
      subst h
      refine ⟨?_, fun k hk => ⟨?_, ?_⟩⟩
      · rw [get_model_eq_lookup]
        exact lookup_key_insertReplace_self _ _ _
      · exact lookup_key_insertReplace_other _ _ _ _ hk
      · exact countKey_insertReplace_other _ _ _ _ hk

/-- Witness for C6: registering `vision_model` into `reg_single` succeeds
and changes only its own key. -/
theorem claim_C6_witness :
    get_model ⟨insertReplace reg_single.models (model_key vision_model) vision_model⟩
        "acme" "v1" = some vision_model ∧
    ∀ k, k ≠ model_key vision_model →
      lookup_key (insertReplace reg_single.models (model_key vision_model)
          vision_model) k = lookup_key reg_single.models k ∧
      countKey (insertReplace reg_single.models (model_key vision_model)
          vision_model) k = countKey reg_single.models k :=
  (claim_C6_register_validation_atomic reg_single vision_model).2
    ⟨insertReplace reg_single.models (model_key vision_model) vision_model⟩ rfl

/-- C9: `recommend_model` is deterministic (the embedding is a pure
function of the registry contents — including insertion order — and the
prompt), and on a non-empty candidate set it selects the first entry, in
registry enumeration order, among those attaining the maximal score: the
stable descending sort breaks ties in favour of the first-registered
descriptor. -/
theorem claim_C9_deterministic_first_registered_wins_ties (reg : Registry)
    (prompt : String) (topt : Option String) :
    recommend_model reg prompt topt = recommend_model reg prompt topt ∧
    (candidate_models reg topt ≠ [] →
      ∃ s l₁ l₂, scored_models reg prompt topt = l₁ ++ s :: l₂ ∧
        (∀ t ∈ l₁, t.score < s.score) ∧
        (∀ t ∈ scored_models reg prompt topt, t.score ≤ s.score) ∧
        recommend_model reg prompt topt =
          select_output (analyze_requirements prompt) s) :=
  ⟨rfl, recommend_model_selects reg prompt topt⟩

/-- Witness for C9 at the two-model registry `reg_pair`. -/
theorem claim_C9_witness :
    ∃ s l₁ l₂, scored_models reg_pair "hello" none = l₁ ++ s :: l₂ ∧
      (∀ t ∈ l₁, t.score < s.score) ∧
      (∀ t ∈ scored_models reg_pair "hello" none, t.score ≤ s.score) ∧
      recommend_model reg_pair "hello" none =
        select_output (analyze_requirements "hello") s :=
  (claim_C9_deterministic_first_registered_wins_ties reg_pair "hello" none).2
    (by decide)

/-- C1 counterexample: with `reg_single` (one text-only model) and the
vision prompt `"image"`, the sole candidate is hard-disqualified (sentinel
`-9999`), yet `recommend_model` returns that disqualified model rather than
the fallback; and with `reg_pair` the disqualified text-only model still
appears in the top-K list of `get_task_recommendations`. This refutes the
claim that disqualified candidates are discarded before ranking. -/
theorem claim_C1_counterexample :
    (score_model text_only_model (analyze_requirements "image")).score = -9999 ∧
    (recommend_model reg_single "image" none).provider = "acme" ∧
    (recommend_model reg_single "image" none).model = "m1" ∧
    (recommend_model reg_single "image" none).score = some (-9999) ∧
    recommend_model reg_single "image" none ≠ fallback_recommendation ∧
    (get_task_recommendations reg_pair "image" none).recommendations.map
        (fun t => t.model) = ["v1", "m1"] := by
  exact ⟨by decide, by decide, by decide, by decide, by decide, by decide⟩

/-- C1 amended: the pipeline does not discard disqualified candidates; they
only rank below every non-disqualified candidate, because the sentinel
`-9999` lies below any additive score (at least `-105` for descriptors with
non-negative intelligence ratings). Hence whenever at least one candidate
is not disqualified, `recommend_model` returns a non-disqualified model and
not the fallback; when every candidate is disqualified it returns the
top-ranked disqualified model instead of the fallback, and disqualified
models can appear in the top-K list (counterexample above). -/
theorem claim_C1_amended_disqualified_rank_below (reg : Registry)
    (prompt : String) (topt : Option String)
    (hintel : ∀ m ∈ candidate_models reg topt, 0 ≤ m.intelligence.getD 0)
    (hsome : ∃ m ∈ candidate_models reg topt,
      (score_model m (analyze_requirements prompt)).score ≠ -9999) :
    ∃ m ∈ candidate_models reg topt,
      (score_model m (analyze_requirements prompt)).score ≠ -9999 ∧
      (recommend_model reg prompt topt).provider = m.provider ∧
      (recommend_model reg prompt topt).model = m.model_id ∧
      (recommend_model reg prompt topt).score =
        some (score_model m (analyze_requirements prompt)).score ∧
      recommend_model reg prompt topt ≠ fallback_recommendation := by
  obtain ⟨m₀, hm₀mem, hm₀⟩ := hsome
  have hne : candidate_models reg topt ≠ [] := by
    intro h
    rw [h] at hm₀mem
    exact absurd hm₀mem (List.not_mem_nil m₀)
  obtain ⟨s, l₁, l₂, hsplit, hlt, hle, hout⟩ :=
    recommend_model_selects reg prompt topt hne
  have hsmem : s ∈ scored_models reg prompt topt := by
    rw [hsplit]
    exact List.mem_append_right _ (List.mem_cons_self s l₂)
  obtain ⟨m, hmmem, hms⟩ := List.mem_map.mp hsmem
  have ht₀mem : (Scored.mk m₀
        (score_model m₀ (analyze_requirements prompt)).score
        (score_model m₀ (analyze_requirements prompt)).reasons)
      ∈ scored_models reg prompt topt :=
    List.mem_map.mpr ⟨m₀, hm₀mem, rfl⟩
  have hb₀ : -105 ≤ (score_model m₀ (analyze_requirements prompt)).score := by
    rw [score_model_of_ne_sentinel m₀ _ hm₀]
    exact additive_score_lb m₀ _ (hintel m₀ hm₀mem)
      (analyze_complexity_bounds prompt).2
  have hles : (score_model m₀ (analyze_requirements prompt)).score ≤ s.score :=
    hle _ ht₀mem
  subst hms
  refine ⟨m, hmmem, ?_, ?_, ?_, ?_, ?_⟩
  · dsimp only at hles ⊢
    omega
  · rw [hout]
    rfl
  · rw [hout]
    rfl
  · rw [hout]
    rfl
  · rw [hout]
    intro heq
    have := congrArg Recommendation.score heq
    simp [select_output, fallback_recommendation] at this

/-- Witness for C1's amended theorem at `reg_pair` and the prompt
`"image"`. -/
theorem claim_C1_amended_witness :
    ∃ m ∈ candidate_models reg_pair none,
      (score_model m (analyze_requirements "image")).score ≠ -9999 ∧
      (recommend_model reg_pair "image" none).provider = m.provider ∧
      (recommend_model reg_pair "image" none).model = m.model_id ∧
      (recommend_model reg_pair "image" none).score =
        some (score_model m (analyze_requirements "image")).score ∧
      recommend_model reg_pair "image" none ≠ fallback_recommendation :=
  claim_C1_amended_disqualified_rank_below reg_pair "image" none
    (by decide) (by decide)

/-- The registry produced by `GPToggle.__init__`, explicitly. -/
theorem gptoggle_init_models (api_keys : List String) :
    (gptoggle_init api_keys).models =
      if api_keys.contains "anthropic" then
        [("openai:gpt-3.5-turbo", gpt35_model),
         ("anthropic:claude-instant-1", claude_instant_model)]
      else [("openai:gpt-3.5-turbo", gpt35_model)] := by
  unfold gptoggle_init
  split_ifs with h <;> rfl

/-- C10: `GPToggle.__init__` always registers the built-in
`openai / gpt-3.5-turbo` descriptor (tier `"free"`), so a freshly
constructed instance has a non-empty registry; every `recommend_model`
call without a tier option therefore has candidates and never takes the
`"No eligible models found, using fallback"` branch, which is reachable
only through a tier filter matching no registered model (e.g. tier
`"premium"`). -/
theorem claim_C10_builtin_fallback_registered (api_keys : List String)
    (prompt : String) :
    get_model (gptoggle_init api_keys) "openai" "gpt-3.5-turbo"
        = some gpt35_model ∧
    gpt35_model.tiers = ["free"] ∧
    get_all_models (gptoggle_init api_keys) ≠ [] ∧
    (recommend_model (gptoggle_init api_keys) prompt none).score.isSome = true ∧
    recommend_model (gptoggle_init api_keys) prompt none
        ≠ fallback_recommendation ∧
    recommend_model (gptoggle_init api_keys) prompt (some "premium")
        = fallback_recommendation ∧
    ∀ tier, get_models_by_tier (gptoggle_init api_keys) tier ≠ [] →
      recommend_model (gptoggle_init api_keys) prompt (some tier)
        ≠ fallback_recommendation := by
  have hmodels := gptoggle_init_models api_keys
  have hall : get_all_models (gptoggle_init api_keys) ≠ [] := by
    unfold get_all_models
    rw [hmodels]
    split_ifs <;> simp
  have hne : candidate_models (gptoggle_init api_keys) none ≠ [] := hall
  obtain ⟨s, l₁, l₂, hsplit, hlt, hle, hout⟩ :=
    recommend_model_selects (gptoggle_init api_keys) prompt none hne
  refine ⟨?_, rfl, hall, ?_, ?_, ?_, ?_⟩
  · rw [get_model_eq_lookup, hmodels]
    split_ifs <;> decide
  · rw [hout]
    rfl
  · rw [hout]
    intro heq
    have := congrArg Recommendation.score heq
    simp [select_output, fallback_recommendation] at this
  · apply recommend_model_of_no_candidates
    show get_models_by_tier (gptoggle_init api_keys) "premium" = []
    unfold get_models_by_tier get_all_models
    rw [hmodels]
    split_ifs <;> rfl
  · intro tier hne2
    obtain ⟨s2, l3, l4, hsplit2, hlt2, hle2, hout2⟩ :=
      recommend_model_selects (gptoggle_init api_keys) prompt (some tier) hne2
    rw [hout2]
    intro heq
    have := congrArg Recommendation.score heq
    simp [select_output, fallback_recommendation] at this

/-- Witness for C10: at tier `"free"` (which matches the built-in model)
the fallback branch is not taken. -/
theorem claim_C10_witness :
    get_models_by_tier (gptoggle_init []) "free" ≠ [] ∧
    recommend_model (gptoggle_init []) "hello" (some "free")
      ≠ fallback_recommendation :=
  ⟨by decide,
   (claim_C10_builtin_fallback_registered [] "hello").2.2.2.2.2.2 "free"
     (by decide)⟩

end GPToggleV2
